import Mathlib

/-!
Verification of the go-rate-limiter token-bucket library.

This file gives a shallow embedding of the core of the repository:
the in-memory backend (pkg/backend/in_memory.go), the Lua script of the
Redis backend (same file), and the RateLimiter facade (pkg/limiter/limiter.go),
together with theorems checking the repository's specification against it.

Modelling conventions:
- Go `int` and `time.Duration` are modelled as unbounded `Int`
  (nanosecond-valued durations and timestamps); Go integer division `/`
  truncates toward zero and is modelled by `Int.tdiv`, Lua's
  `math.floor(a / b)` by `Int.fdiv`.
- `time.Now()` is passed explicitly as a `now : Int` parameter to every
  operation that reads the clock (one timestamp per operation).
- `context.Context` is modelled by its only observable in this code base:
  whether it is cancelled.
- `sync.Map` is modelled by an association list keyed by `String`; the
  per-key and store locks serialize every operation, so the sequential
  model runs one whole operation at a time.
- Errors are modelled by their kind (the sentinel they wrap); `errors.Wrap`
  preserves the wrapped sentinel, so wrapping is the identity on kinds.
-/

namespace GoRateLimiter

/-- Error kinds from pkg/errors: each sentinel error value, by its type. -/
inductive Err where
  | invalidKey
  | invalidTokens
  | backendUnavailable
  | contextCancelled
  deriving Repr, DecidableEq

/-- ValidationError kinds are ErrInvalidKey and ErrInvalidTokens (pkg/errors). -/
def Err.isValidation : Err → Bool
  | .invalidKey => true
  | .invalidTokens => true
  | _ => false

/-- A context, reduced to its cancellation status (all the code observes). -/
structure Ctx where
  cancelled : Bool
  deriving Repr, DecidableEq

/-- Backend options (pkg/backend, Options struct). Durations in nanoseconds. -/
structure Options where
  DefaultLimit : Int
  DefaultRefill : Int
  DefaultBurst : Int
  MaxKeys : Int
  CleanupInterval : Int
  deriving Repr, DecidableEq

/-- DefaultOptions from pkg/backend: 100 tokens, 1s refill, burst 10,
10000 keys, 5m cleanup. -/
def DefaultOptions : Options :=
  { DefaultLimit := 100
    DefaultRefill := 1000000000
    DefaultBurst := 10
    MaxKeys := 10000
    CleanupInterval := 300000000000 }

/-- Options.Validate: every field must be strictly positive. -/
def Options.Validate (o : Options) : Bool :=
  0 < o.DefaultLimit && 0 < o.DefaultRefill && 0 < o.DefaultBurst &&
    0 < o.MaxKeys && 0 < o.CleanupInterval

/-- The bucket struct of pkg/backend/in_memory.go. -/
structure Bucket where
  Key : String
  Tokens : Int
  MaxTokens : Int
  RefillRate : Int
  LastRefill : Int
  NextRefill : Int
  ResetTime : Int
  deriving Repr, DecidableEq

/-- bucket.refillTokens: mint floor-of-elapsed-over-rate tokens (Go integer
division truncates toward zero), clamp at MaxTokens, and advance the
watermark only when at least one token was minted. -/
def Bucket.refillTokens (bkt : Bucket) (now : Int) : Bucket :=
  let elapsed := now - bkt.LastRefill
  let tokensToAdd := Int.tdiv elapsed bkt.RefillRate
  if 0 < tokensToAdd then
    { bkt with
      Tokens := min bkt.MaxTokens (bkt.Tokens + tokensToAdd)
      LastRefill := now
      NextRefill := now + bkt.RefillRate
      ResetTime := now + bkt.RefillRate }
  else
    bkt

/-- TokenInfo snapshot returned by GetInfo (pkg/backend). -/
structure TokenInfo where
  Key : String
  Tokens : Int
  MaxTokens : Int
  RefillRate : Int
  LastRefill : Int
  NextRefill : Int
  ResetTime : Int
  deriving Repr, DecidableEq

/-- The sync.Map store, as an association list. -/
abbrev Store := List (String × Bucket)

def Store.lookup : Store → String → Option Bucket
  | [], _ => none
  | (k, b) :: rest, key => if k = key then some b else Store.lookup rest key

/-- Overwrite (or append) the bucket for a key. -/
def Store.set : Store → String → Bucket → Store
  | [], key, b => [(key, b)]
  | (k, b0) :: rest, key, b =>
      if k = key then (k, b) :: rest else (k, b0) :: Store.set rest key b

/-- sync.Map.Delete. -/
def Store.del : Store → String → Store
  | [], _ => []
  | (k, b0) :: rest, key =>
      if k = key then Store.del rest key else (k, b0) :: Store.del rest key

/-- The inMemoryBackend struct: store, options and the closed flag. -/
structure InMemoryBackend where
  store : Store
  options : Options
  closed : Bool
  deriving Repr, DecidableEq

/-- NewInMemoryBackend with validated options: open backend, empty store. -/
def NewInMemoryBackend (options : Options) : InMemoryBackend :=
  { store := [], options := options, closed := false }

/-- validateKey (pkg/backend): key non-empty and at most 256 bytes
(Go len on a string counts bytes). -/
def validateKey (key : String) : Option Err :=
  if key = "" then some .invalidKey
  else if 256 < key.utf8ByteSize then some .invalidKey
  else none

/-- validateTokens (pkg/backend): tokens must be strictly positive. -/
def validateTokens (tokens : Int) : Option Err :=
  if tokens ≤ 0 then some .invalidTokens else none

/-- The bucket getOrCreateBucket builds on first access: full at the
options' default limit, watermark at now. -/
def InMemoryBackend.freshBucket (b : InMemoryBackend) (key : String)
    (now : Int) : Bucket :=
  { Key := key
    Tokens := b.options.DefaultLimit
    MaxTokens := b.options.DefaultLimit
    RefillRate := b.options.DefaultRefill
    LastRefill := now
    NextRefill := now + b.options.DefaultRefill
    ResetTime := now + b.options.DefaultRefill }

/-- getOrCreateBucket: return the stored bucket, or create a full bucket
from the options' defaults (and store it). Returns the effective bucket
and the updated backend. -/
def InMemoryBackend.getOrCreateBucket (b : InMemoryBackend) (key : String)
    (now : Int) : Bucket × InMemoryBackend :=
  match b.store.lookup key with
  | some bkt => (bkt, b)
  | none =>
      let newBucket := b.freshBucket key now
      (newBucket, { b with store := b.store.set key newBucket })

/-- inMemoryBackend.Take: closed check, key/tokens validation, context
check, then get-or-create, refill, and consume-or-reject. The refilled
bucket is written back in both outcomes (the Go code mutates it in place). -/
def InMemoryBackend.Take (b : InMemoryBackend) (ctx : Ctx) (key : String)
    (tokens : Int) (now : Int) : Except Err Bool × InMemoryBackend :=
  if b.closed then (.error .backendUnavailable, b)
  else match validateKey key with
  | some e => (.error e, b)
  | none =>
    match validateTokens tokens with
    | some e => (.error e, b)
    | none =>
      if ctx.cancelled then (.error .contextCancelled, b)
      else
        let p := b.getOrCreateBucket key now
        let bkt := p.1.refillTokens now
        if tokens ≤ bkt.Tokens then
          let bkt2 := { bkt with Tokens := bkt.Tokens - tokens }
          (.ok true, { p.2 with store := p.2.store.set key bkt2 })
        else
          (.ok false, { p.2 with store := p.2.store.set key bkt })

/-- inMemoryBackend.Reset: closed check, key validation, then delete.
(The Go Reset has no context check.) -/
def InMemoryBackend.Reset (b : InMemoryBackend) (key : String) :
    Option Err × InMemoryBackend :=
  if b.closed then (some .backendUnavailable, b)
  else match validateKey key with
  | some e => (some e, b)
  | none => (none, { b with store := b.store.del key })

/-- inMemoryBackend.GetInfo: closed check, key validation, context check,
get-or-create, refill, and a snapshot of the refilled bucket. The refill
is a persisted side effect. -/
def InMemoryBackend.GetInfo (b : InMemoryBackend) (ctx : Ctx) (key : String)
    (now : Int) : Except Err TokenInfo × InMemoryBackend :=
  if b.closed then (.error .backendUnavailable, b)
  else match validateKey key with
  | some e => (.error e, b)
  | none =>
    if ctx.cancelled then (.error .contextCancelled, b)
    else
      let p := b.getOrCreateBucket key now
      let bkt := p.1.refillTokens now
      (.ok { Key := bkt.Key, Tokens := bkt.Tokens, MaxTokens := bkt.MaxTokens
             RefillRate := bkt.RefillRate, LastRefill := bkt.LastRefill
             NextRefill := bkt.NextRefill, ResetTime := bkt.ResetTime },
       { p.2 with store := p.2.store.set key bkt })

/-- inMemoryBackend.SetLimit: closed check, key validation, positivity of
limit and refill, then overwrite MaxTokens/RefillRate/ResetTime of the
(possibly freshly created) bucket. Tokens is not touched and not clamped.
(The Go SetLimit has no context check.) -/
def InMemoryBackend.SetLimit (b : InMemoryBackend) (key : String)
    (limit : Int) (refill : Int) (now : Int) : Option Err × InMemoryBackend :=
  if b.closed then (some .backendUnavailable, b)
  else match validateKey key with
  | some e => (some e, b)
  | none =>
    if limit ≤ 0 then (some .invalidTokens, b)
    else if refill ≤ 0 then (some .invalidTokens, b)
    else
      let p := b.getOrCreateBucket key now
      let bkt := { p.1 with MaxTokens := limit, RefillRate := refill
                            ResetTime := now + refill }
      (none, { p.2 with store := p.2.store.set key bkt })

/-- inMemoryBackend.Close: idempotent flip of the closed flag (the cleanup
goroutine shutdown has no observable effect on the store model). -/
def InMemoryBackend.Close (b : InMemoryBackend) : Option Err × InMemoryBackend :=
  if b.closed then (none, b) else (none, { b with closed := true })

/-- cleanupExpiredBuckets: drop buckets whose LastRefill is before
now - 2 * CleanupInterval. -/
def InMemoryBackend.cleanupExpiredBuckets (b : InMemoryBackend) (now : Int) :
    InMemoryBackend :=
  let cutoff := now - 2 * b.options.CleanupInterval
  { b with store := b.store.filter (fun kv => !decide (kv.2.LastRefill < cutoff)) }

/-- One observable operation against the in-memory backend, with the
timestamp at which it runs. -/
inductive Op where
  | take (ctx : Ctx) (key : String) (tokens : Int) (now : Int)
  | reset (key : String)
  | getInfo (ctx : Ctx) (key : String) (now : Int)
  | setLimit (key : String) (limit : Int) (refill : Int) (now : Int)
  | close
  | cleanup (now : Int)
  deriving Repr, DecidableEq

/-- Apply one operation, keeping only the state. -/
def InMemoryBackend.applyOp (b : InMemoryBackend) : Op → InMemoryBackend
  | .take ctx key tokens now => (b.Take ctx key tokens now).2
  | .reset key => (b.Reset key).2
  | .getInfo ctx key now => (b.GetInfo ctx key now).2
  | .setLimit key limit refill now => (b.SetLimit key limit refill now).2
  | .close => b.Close.2
  | .cleanup now => b.cleanupExpiredBuckets now

/-- Run a sequence of operations from a given state. -/
def InMemoryBackend.runOps (b : InMemoryBackend) : List Op → InMemoryBackend
  | [] => b
  | op :: rest => (b.applyOp op).runOps rest

def Op.isSetLimit : Op → Bool
  | .setLimit _ _ _ _ => true
  | _ => false

/-- The hash fields HMGET reads for a key in the Redis backend; `none`
models an absent key or a field on which Lua's tonumber yields nil. -/
structure RedisStored where
  tokens : Option Int
  maxTokens : Option Int
  refillRate : Option Int
  lastRefill : Option Int
  deriving Repr, DecidableEq

/-- Result of the Lua script of redisBackend.Take: the returned 1/0 flag
and the token count and watermark the script computed (persisted via HMSET
only when the request is allowed). -/
structure LuaResult where
  allowed : Bool
  tokens : Int
  lastRefill : Int
  minted : Int
  persisted : Bool
  deriving Repr, DecidableEq

/-- The Lua script executed by redisBackend.Take, field by field:
missing fields default to the ARGV defaults (tokens to the max-tokens
argument, last_refill to the current time); refill mints
math.floor(elapsed / rate) tokens (Lua floor division is `Int.fdiv`),
clamped with math.min at the bucket's max; consumption succeeds when the
post-refill count covers the request. -/
def luaTake (stored : RedisStored) (tokensToConsume maxTokensArg
    refillRateArg currentTime : Int) : LuaResult :=
  let currentTokens := stored.tokens.getD maxTokensArg
  let bucketMaxTokens := stored.maxTokens.getD maxTokensArg
  let bucketRefillRate := stored.refillRate.getD refillRateArg
  let lastRefill := stored.lastRefill.getD currentTime
  let timeElapsed := currentTime - lastRefill
  let tokensToAdd := Int.fdiv timeElapsed bucketRefillRate
  let ct := if 0 < tokensToAdd then min bucketMaxTokens (currentTokens + tokensToAdd)
            else currentTokens
  let lr := if 0 < tokensToAdd then currentTime else lastRefill
  if tokensToConsume ≤ ct then
    { allowed := true, tokens := ct - tokensToConsume, lastRefill := lr
      minted := tokensToAdd, persisted := true }
  else
    { allowed := false, tokens := ct, lastRefill := lr
      minted := tokensToAdd, persisted := false }

/-- Outcome of the spec's section 4.1 contract attempt_consume. -/
structure SpecOutcome where
  allowed : Bool
  tokens : Int
  lastRefill : Int
  deriving Repr, DecidableEq

/-- The section 4.1 algorithm exactly as the spec words it (spec-side
definition, used only to compare the code against the spec):
whole_intervals = floor(elapsed / refill_interval); when positive, tokens
becomes min(max_tokens, tokens + whole_intervals) and the watermark moves
to now, otherwise the watermark stays; the request is allowed iff the
post-refill count covers it, consuming exactly the requested amount. -/
def specAttemptConsume (tokens maxTokens refillInterval lastRefillTime
    now requested : Int) : SpecOutcome :=
  let elapsed := now - lastRefillTime
  let wholeIntervals := Int.fdiv elapsed refillInterval
  let t1 := if 0 < wholeIntervals then min maxTokens (tokens + wholeIntervals)
            else tokens
  let lr1 := if 0 < wholeIntervals then now else lastRefillTime
  if requested ≤ t1 then { allowed := true, tokens := t1 - requested, lastRefill := lr1 }
  else { allowed := false, tokens := t1, lastRefill := lr1 }

/-- Modelled from the spec: the pkg/config package (Config, DefaultConfig,
Config.Validate) is not among the given source files, only its tests are.
Fields and the all-positive validation rule follow spec section 6; the
default values follow pkg/config/config_test.go (100 tokens, 1s refill,
burst 10, 5m cleanup, 10000 keys, metrics and logging enabled). The Redis
and InMemory sub-records are omitted: no claim observes them. -/
structure Config where
  DefaultLimit : Int
  DefaultRefill : Int
  DefaultBurst : Int
  CleanupInterval : Int
  MaxKeys : Int
  EnableMetrics : Bool
  EnableLogging : Bool
  deriving Repr, DecidableEq

/-- Modelled from the spec: DefaultConfig, values from pkg/config/config_test.go. -/
def DefaultConfig : Config :=
  { DefaultLimit := 100
    DefaultRefill := 1000000000
    DefaultBurst := 10
    CleanupInterval := 300000000000
    MaxKeys := 10000
    EnableMetrics := true
    EnableLogging := true }

/-- Modelled from the spec: Config.Validate, all numeric fields strictly
positive (spec section 6: invalid values fail construction). -/
def Config.Validate (c : Config) : Bool :=
  0 < c.DefaultLimit && 0 < c.DefaultRefill && 0 < c.DefaultBurst &&
    0 < c.CleanupInterval && 0 < c.MaxKeys

/-- The RateLimiter facade state: its validated config and the closed
flag. The backend it holds is abstract (any Backend implementation), so
each modelled facade operation receives the backend call it may delegate
to as a function argument and additionally reports whether the backend
was reached (the Bool in the result), which mirrors whether the Go code
executes the r.backend call on that path. -/
structure RateLimiter where
  config : Config
  closed : Bool
  deriving Repr, DecidableEq

/-- limiter.New: a nil backend is rejected; a nil config is replaced with
config.DefaultConfig before validation. The nil-ness of the backend
pointer is modelled by a Bool, the nil-ness of the config by Option. -/
def RateLimiterNew (backendIsNil : Bool) (cfg : Option Config) :
    Except Err RateLimiter :=
  if backendIsNil then .error .backendUnavailable
  else
    let c := cfg.getD DefaultConfig
    if c.Validate then .ok { config := c, closed := false }
    else .error .invalidTokens

/-- RateLimiter.validateKey: non-empty, at most 256 bytes. -/
def RateLimiter.validateKey (_r : RateLimiter) (key : String) : Option Err :=
  if key = "" then some .invalidKey
  else if 256 < key.utf8ByteSize then some .invalidKey
  else none

/-- RateLimiter.validateTokens: positive and at most 10 times the
configured default limit. -/
def RateLimiter.validateTokens (r : RateLimiter) (tokens : Int) : Option Err :=
  if tokens ≤ 0 then some .invalidTokens
  else if r.config.DefaultLimit * 10 < tokens then some .invalidTokens
  else none

/-- RateLimiter.Take: closed check, key and tokens validation, context
check, then delegation to Backend.Take (whose error is wrapped, which
preserves its kind). -/
def RateLimiter.Take (r : RateLimiter) (ctx : Ctx) (key : String)
    (tokens : Int) (backendTake : String → Int → Except Err Bool) :
    Except Err Bool × Bool :=
  if r.closed then (.error .backendUnavailable, false)
  else match r.validateKey key with
  | some e => (.error e, false)
  | none =>
    match r.validateTokens tokens with
    | some e => (.error e, false)
    | none =>
      if ctx.cancelled then (.error .contextCancelled, false)
      else (backendTake key tokens, true)

/-- RateLimiter.TakeWithLimit: closed check, validation of key, tokens,
limit and refill, then Backend.SetLimit followed by Backend.Take. (The Go
method has no context-cancellation check of its own.) -/
def RateLimiter.TakeWithLimit (r : RateLimiter) (_ctx : Ctx) (key : String)
    (tokens limit refill : Int)
    (backendSetLimit : String → Int → Int → Option Err)
    (backendTake : String → Int → Except Err Bool) : Except Err Bool × Bool :=
  if r.closed then (.error .backendUnavailable, false)
  else match r.validateKey key with
  | some e => (.error e, false)
  | none =>
    match r.validateTokens tokens with
    | some e => (.error e, false)
    | none =>
      if limit ≤ 0 then (.error .invalidTokens, false)
      else if refill ≤ 0 then (.error .invalidTokens, false)
      else match backendSetLimit key limit refill with
        | some e => (.error e, true)
        | none => (backendTake key tokens, true)

/-- RateLimiter.Reset: closed check, key validation, then delegation. -/
def RateLimiter.Reset (r : RateLimiter) (key : String)
    (backendReset : String → Option Err) : Option Err × Bool :=
  if r.closed then (some .backendUnavailable, false)
  else match r.validateKey key with
  | some e => (some e, false)
  | none => (backendReset key, true)

/-- RateLimiter.GetInfo: closed check, key validation, then delegation. -/
def RateLimiter.GetInfo (r : RateLimiter) (key : String)
    (backendGetInfo : String → Except Err TokenInfo) :
    Except Err TokenInfo × Bool :=
  if r.closed then (.error .backendUnavailable, false)
  else match r.validateKey key with
  | some e => (.error e, false)
  | none => (backendGetInfo key, true)

/-- RateLimiter.IsAllowed: GetInfo's snapshot compared against the
request; no token validation of its own. -/
def RateLimiter.IsAllowed (r : RateLimiter) (key : String) (tokens : Int)
    (backendGetInfo : String → Except Err TokenInfo) : Except Err Bool × Bool :=
  match r.GetInfo key backendGetInfo with
  | (.error e, c) => (.error e, c)
  | (.ok info, c) => (.ok (tokens ≤ info.Tokens), c)

/-- RateLimiter.Close: a second Close returns nil without reaching the
backend; the first Close sets the flag and delegates to Backend.Close. -/
def RateLimiter.Close (r : RateLimiter) (backendClose : Unit → Option Err) :
    Option Err × RateLimiter × Bool :=
  if r.closed then (none, r, false)
  else (backendClose (), { r with closed := true }, true)

/-- RateLimiter.HealthCheck: closed check, then delegation. -/
def RateLimiter.HealthCheck (r : RateLimiter)
    (backendHealth : Unit → Option Err) : Option Err × Bool :=
  if r.closed then (some .backendUnavailable, false)
  else (backendHealth (), true)

/-- The select loop of RateLimiter.Wait, indexed by tick number k: tick k
is the k-th firing of the 100ms ticker, k = 1, 2, .... `cancelledAt k`
tells whether ctx.Done() is ready when the loop blocks before tick k; the
Done branch is taken whenever it is ready (the select nondeterminism
resolved in its favor). `poll k` is the IsAllowed outcome at tick k.
Returns the tick at which Wait returns, the number of IsAllowed polls it
performed, and its error (none on success); `none` when the fuel runs out
with Wait still blocked. -/
def waitLoop (cancelledAt : Nat → Bool) (poll : Nat → Except Err Bool) :
    Nat → Nat → Nat → Option (Nat × Nat × Option Err)
  | _, 0, _ => none
  | k, fuel + 1, polls =>
    if cancelledAt k then some (k, polls, some .contextCancelled)
    else match poll k with
      | .error e => some (k, polls + 1, some e)
      | .ok true => some (k, polls + 1, none)
      | .ok false => waitLoop cancelledAt poll (k + 1) fuel (polls + 1)

/-- RateLimiter.Wait: a ticker loop polling IsAllowed; there is no special
case for tokens ≤ 0, so the first check can only happen at the first tick.
`backendGetInfo k` is the backend snapshot available at tick k. -/
def RateLimiter.Wait (r : RateLimiter) (key : String) (tokens : Int)
    (cancelledAt : Nat → Bool)
    (backendGetInfo : Nat → String → Except Err TokenInfo) (fuel : Nat) :
    Option (Nat × Nat × Option Err) :=
  waitLoop cancelledAt
    (fun k => (r.IsAllowed key tokens (backendGetInfo k)).1) 1 fuel 0

/-- The weak bucket invariant: nonnegative tokens, positive capacity and
refill rate (what actually holds on every reachable bucket). -/
def BucketOkWeak (bkt : Bucket) : Prop :=
  0 ≤ bkt.Tokens ∧ 0 < bkt.MaxTokens ∧ 0 < bkt.RefillRate

/-- The full bucket invariant of the spec: 0 ≤ tokens ≤ max_tokens
(plus positive capacity and rate). -/
def BucketOk (bkt : Bucket) : Prop :=
  0 ≤ bkt.Tokens ∧ bkt.Tokens ≤ bkt.MaxTokens ∧ 0 < bkt.MaxTokens ∧
    0 < bkt.RefillRate

/-- Boolean form of the spec's 0 ≤ tokens ≤ max_tokens invariant, for
evaluating it at concrete states. -/
def bucketOkB (bkt : Bucket) : Bool :=
  0 ≤ bkt.Tokens && bkt.Tokens ≤ bkt.MaxTokens

/-- Every bucket stored in the backend satisfies P. -/
def StoreInv (P : Bucket → Prop) (b : InMemoryBackend) : Prop :=
  ∀ kv ∈ b.store, P kv.2

/-- The part of Options.Validate the bucket invariants rely on. -/
def OptionsOk (o : Options) : Prop :=
  0 < o.DefaultLimit ∧ 0 < o.DefaultRefill

/-- Whether an Except value is a ValidationError. -/
def exceptIsValidation {α : Type} : Except Err α → Bool
  | .error e => e.isValidation
  | .ok _ => false

theorem Store.lookup_set_self (s : Store) (k : String) (v : Bucket) :
    (s.set k v).lookup k = some v := by
  induction s with
  | nil => simp [Store.set, Store.lookup]
  | cons hd tl ih =>
    obtain ⟨a, b⟩ := hd
    by_cases h : a = k
    · simp [Store.set, Store.lookup, h]
    · simp [Store.set, Store.lookup, h, ih]

theorem Store.lookup_set_of_ne (s : Store) (k : String) (v : Bucket)
    (k' : String) (h : k' ≠ k) : (s.set k v).lookup k' = s.lookup k' := by
  have hk : k ≠ k' := Ne.symm h
  induction s with
  | nil => simp [Store.set, Store.lookup, hk]
  | cons hd tl ih =>
    obtain ⟨a, b⟩ := hd
    by_cases ha : a = k
    · subst ha
      simp [Store.set, Store.lookup, hk]
    · simp [Store.set, Store.lookup, ha, ih]

theorem Store.lookup_mem (s : Store) (k : String) (b : Bucket)
    (h : s.lookup k = some b) : (k, b) ∈ s := by
  induction s with
  | nil => simp [Store.lookup] at h
  | cons hd tl ih =>
    obtain ⟨a, b0⟩ := hd
    by_cases ha : a = k
    · subst ha
      simp [Store.lookup] at h
      subst h
      exact List.mem_cons_self _ _
    · simp only [Store.lookup, if_neg ha] at h
      exact List.mem_cons_of_mem _ (ih h)

theorem Store.mem_set (s : Store) (k : String) (v : Bucket)
    (kv : String × Bucket) (h : kv ∈ s.set k v) : kv ∈ s ∨ kv = (k, v) := by
  induction s with
  | nil =>
    simp [Store.set] at h
    exact Or.inr (by simp [h])
  | cons hd tl ih =>
    obtain ⟨a, b0⟩ := hd
    by_cases ha : a = k
    · subst ha
      simp only [Store.set, if_pos] at h
      rcases List.mem_cons.1 h with h1 | h1
      · exact Or.inr h1
      · exact Or.inl (List.mem_cons_of_mem _ h1)
    · simp only [Store.set, if_neg ha] at h
      rcases List.mem_cons.1 h with h1 | h1
      · exact Or.inl (h1 ▸ List.mem_cons_self _ _)
      · rcases ih h1 with h2 | h2
        · exact Or.inl (List.mem_cons_of_mem _ h2)
        · exact Or.inr h2

theorem Store.mem_del (s : Store) (k : String) (kv : String × Bucket)
    (h : kv ∈ s.del k) : kv ∈ s := by
  induction s with
  | nil => simp [Store.del] at h
  | cons hd tl ih =>
    obtain ⟨a, b0⟩ := hd
    by_cases ha : a = k
    · subst ha
      simp only [Store.del, if_pos] at h
      exact List.mem_cons_of_mem _ (ih h)
    · simp only [Store.del, if_neg ha] at h
      rcases List.mem_cons.1 h with h1 | h1
      · exact h1 ▸ List.mem_cons_self _ _
      · exact List.mem_cons_of_mem _ (ih h1)

theorem storeInv_lookup {P : Bucket → Prop} {b : InMemoryBackend}
    (h : StoreInv P b) {k : String} {bkt : Bucket}
    (hl : b.store.lookup k = some bkt) : P bkt :=
  h (k, bkt) (Store.lookup_mem _ _ _ hl)

theorem store_set_inv {P : Bucket → Prop} {s : Store}
    (h : ∀ kv ∈ s, P kv.2) {k : String} {v : Bucket} (hv : P v) :
    ∀ kv ∈ s.set k v, P kv.2 := by
  intro kv hkv
  rcases Store.mem_set _ _ _ _ hkv with h1 | h1
  · exact h kv h1
  · rw [h1]; exact hv

theorem refillTokens_MaxTokens (bkt : Bucket) (now : Int) :
    (bkt.refillTokens now).MaxTokens = bkt.MaxTokens := by
  unfold Bucket.refillTokens
  dsimp only
  split <;> rfl

theorem refillTokens_RefillRate (bkt : Bucket) (now : Int) :
    (bkt.refillTokens now).RefillRate = bkt.RefillRate := by
  unfold Bucket.refillTokens
  dsimp only
  split <;> rfl

theorem refillTokens_weak {bkt : Bucket} (now : Int) (h : BucketOkWeak bkt) :
    BucketOkWeak (bkt.refillTokens now) := by
  obtain ⟨h1, h2, h3⟩ := h
  unfold Bucket.refillTokens
  dsimp only
  split
  · rename_i hadd
    refine ⟨le_min (le_of_lt h2) (by linarith), h2, h3⟩
  · exact ⟨h1, h2, h3⟩

theorem refillTokens_ok {bkt : Bucket} (now : Int) (h : BucketOk bkt) :
    BucketOk (bkt.refillTokens now) := by
  obtain ⟨h1, h2, h3, h4⟩ := h
  unfold Bucket.refillTokens
  dsimp only
  split
  · rename_i hadd
    exact ⟨le_min (le_of_lt h3) (by linarith), min_le_left _ _, h3, h4⟩
  · exact ⟨h1, h2, h3, h4⟩

theorem freshBucket_ok {b : InMemoryBackend} (hopt : OptionsOk b.options)
    (key : String) (now : Int) : BucketOk (b.freshBucket key now) :=
  ⟨le_of_lt hopt.1, le_refl _, hopt.1, hopt.2⟩

theorem bucketOk_weak {bkt : Bucket} (h : BucketOk bkt) : BucketOkWeak bkt :=
  ⟨h.1, h.2.2.1, h.2.2.2⟩

theorem getOrCreateBucket_options (b : InMemoryBackend) (key : String)
    (now : Int) : ((b.getOrCreateBucket key now).2).options = b.options := by
  unfold InMemoryBackend.getOrCreateBucket
  cases hl : b.store.lookup key <;> rfl

theorem getOrCreateBucket_closed (b : InMemoryBackend) (key : String)
    (now : Int) : ((b.getOrCreateBucket key now).2).closed = b.closed := by
  unfold InMemoryBackend.getOrCreateBucket
  cases hl : b.store.lookup key <;> rfl

theorem getOrCreateBucket_inv (P : Bucket → Prop) (b : InMemoryBackend)
    (key : String) (now : Int) (h : StoreInv P b)
    (hfresh : P (b.freshBucket key now)) :
    P (b.getOrCreateBucket key now).1 ∧
      StoreInv P (b.getOrCreateBucket key now).2 := by
  unfold InMemoryBackend.getOrCreateBucket
  cases hl : b.store.lookup key with
  | some bkt => exact ⟨storeInv_lookup h hl, h⟩
  | none =>
    refine ⟨hfresh, ?_⟩
    intro kv hkv
    exact store_set_inv h hfresh kv hkv

theorem validateTokens_none_pos {tokens : Int}
    (h : validateTokens tokens = none) : 0 < tokens := by
  unfold validateTokens at h
  by_cases ht : tokens ≤ 0
  · simp [ht] at h
  · linarith

theorem Take_options (b : InMemoryBackend) (ctx : Ctx) (key : String)
    (tokens now : Int) : ((b.Take ctx key tokens now).2).options = b.options := by
  unfold InMemoryBackend.Take
  dsimp only
  split
  · rfl
  split
  · rfl
  split
  · rfl
  split
  · rfl
  split
  · exact getOrCreateBucket_options b key now
  · exact getOrCreateBucket_options b key now

theorem Take_pres (P : Bucket → Prop) (b : InMemoryBackend) (ctx : Ctx)
    (key : String) (tokens now : Int) (h : StoreInv P b)
    (hfresh : P (b.freshBucket key now))
    (hrefill : ∀ bkt, P bkt → P (bkt.refillTokens now))
    (hconsume : ∀ bkt, P bkt → 0 < tokens → tokens ≤ bkt.Tokens →
      P { bkt with Tokens := bkt.Tokens - tokens }) :
    StoreInv P (b.Take ctx key tokens now).2 := by
  unfold InMemoryBackend.Take
  dsimp only
  split
  · exact h
  split
  · exact h
  split
  · exact h
  split
  · exact h
  rename_i hkey0 htok0 hctx0
  have hg := getOrCreateBucket_inv P b key now h hfresh
  have hpos : 0 < tokens := validateTokens_none_pos (by assumption)
  split
  · rename_i hcons
    intro kv hkv
    exact store_set_inv hg.2
      (hconsume _ (hrefill _ hg.1) hpos hcons) kv hkv
  · intro kv hkv
    exact store_set_inv hg.2 (hrefill _ hg.1) kv hkv

theorem Reset_options (b : InMemoryBackend) (key : String) :
    ((b.Reset key).2).options = b.options := by
  unfold InMemoryBackend.Reset
  split
  · rfl
  split
  · rfl
  · rfl

theorem Reset_pres (P : Bucket → Prop) (b : InMemoryBackend) (key : String)
    (h : StoreInv P b) : StoreInv P (b.Reset key).2 := by
  unfold InMemoryBackend.Reset
  split
  · exact h
  split
  · exact h
  · intro kv hkv
    exact h kv (Store.mem_del _ _ _ hkv)

theorem GetInfo_options (b : InMemoryBackend) (ctx : Ctx) (key : String)
    (now : Int) : ((b.GetInfo ctx key now).2).options = b.options := by
  unfold InMemoryBackend.GetInfo
  dsimp only
  split
  · rfl
  split
  · rfl
  split
  · rfl
  · exact getOrCreateBucket_options b key now

theorem GetInfo_pres (P : Bucket → Prop) (b : InMemoryBackend) (ctx : Ctx)
    (key : String) (now : Int) (h : StoreInv P b)
    (hfresh : P (b.freshBucket key now))
    (hrefill : ∀ bkt, P bkt → P (bkt.refillTokens now)) :
    StoreInv P (b.GetInfo ctx key now).2 := by
  unfold InMemoryBackend.GetInfo
  dsimp only
  split
  · exact h
  split
  · exact h
  split
  · exact h
  have hg := getOrCreateBucket_inv P b key now h hfresh
  intro kv hkv
  exact store_set_inv hg.2 (hrefill _ hg.1) kv hkv

theorem SetLimit_options (b : InMemoryBackend) (key : String)
    (limit refill now : Int) :
    ((b.SetLimit key limit refill now).2).options = b.options := by
  unfold InMemoryBackend.SetLimit
  dsimp only
  split
  · rfl
  split
  · rfl
  split
  · rfl
  split
  · rfl
  · exact getOrCreateBucket_options b key now

theorem SetLimit_pres (P : Bucket → Prop) (b : InMemoryBackend)
    (key : String) (limit refill now : Int) (h : StoreInv P b)
    (hfresh : P (b.freshBucket key now))
    (hset : ∀ bkt, P bkt → 0 < limit → 0 < refill →
      P { bkt with MaxTokens := limit, RefillRate := refill
                   ResetTime := now + refill }) :
    StoreInv P (b.SetLimit key limit refill now).2 := by
  unfold InMemoryBackend.SetLimit
  dsimp only
  split
  · exact h
  split
  · exact h
  split
  · exact h
  split
  · exact h
  rename_i hlim href
  have hg := getOrCreateBucket_inv P b key now h hfresh
  intro kv hkv
  exact store_set_inv hg.2
    (hset _ hg.1 (by linarith) (by linarith)) kv hkv

theorem Close_options (b : InMemoryBackend) :
    (b.Close.2).options = b.options := by
  unfold InMemoryBackend.Close
  split <;> rfl

theorem Close_pres (P : Bucket → Prop) (b : InMemoryBackend)
    (h : StoreInv P b) : StoreInv P b.Close.2 := by
  unfold InMemoryBackend.Close
  split
  · exact h
  · exact h

theorem cleanup_options (b : InMemoryBackend) (now : Int) :
    ((b.cleanupExpiredBuckets now).options) = b.options := rfl

theorem cleanup_pres (P : Bucket → Prop) (b : InMemoryBackend) (now : Int)
    (h : StoreInv P b) : StoreInv P (b.cleanupExpiredBuckets now) := by
  intro kv hkv
  exact h kv (List.mem_of_mem_filter hkv)

theorem applyOp_options (b : InMemoryBackend) (op : Op) :
    ((b.applyOp op).options) = b.options := by
  cases op with
  | take ctx key tokens now => exact Take_options b ctx key tokens now
  | reset key => exact Reset_options b key
  | getInfo ctx key now => exact GetInfo_options b ctx key now
  | setLimit key limit refill now => exact SetLimit_options b key limit refill now
  | close => exact Close_options b
  | cleanup now => exact cleanup_options b now

/-- Every operation preserves the weak invariant (nonnegative tokens,
positive capacity and rate), provided the options are valid. -/
theorem applyOp_pres_weak (b : InMemoryBackend) (op : Op)
    (hopt : OptionsOk b.options) (h : StoreInv BucketOkWeak b) :
    StoreInv BucketOkWeak (b.applyOp op) := by
  have hfresh : ∀ key now, BucketOkWeak (b.freshBucket key now) :=
    fun key now => bucketOk_weak (freshBucket_ok hopt key now)
  cases op with
  | take ctx key tokens now =>
    refine Take_pres _ b ctx key tokens now h (hfresh key now)
      (fun bkt hb => refillTokens_weak now hb) ?_
    intro bkt hb hpos hle
    exact ⟨by dsimp; linarith [hb.1], hb.2.1, hb.2.2⟩
  | reset key => exact Reset_pres _ b key h
  | getInfo ctx key now =>
    exact GetInfo_pres _ b ctx key now h (hfresh key now)
      (fun bkt hb => refillTokens_weak now hb)
  | setLimit key limit refill now =>
    refine SetLimit_pres _ b key limit refill now h (hfresh key now) ?_
    intro bkt hb hlim href
    exact ⟨hb.1, hlim, href⟩
  | close => exact Close_pres _ b h
  | cleanup now => exact cleanup_pres _ b now h

/-- Every operation other than SetLimit preserves the full spec invariant
0 ≤ tokens ≤ max_tokens. -/
theorem applyOp_pres_full (b : InMemoryBackend) (op : Op)
    (hopt : OptionsOk b.options) (hop : op.isSetLimit = false)
    (h : StoreInv BucketOk b) : StoreInv BucketOk (b.applyOp op) := by
  have hfresh : ∀ key now, BucketOk (b.freshBucket key now) :=
    fun key now => freshBucket_ok hopt key now
  cases op with
  | take ctx key tokens now =>
    refine Take_pres _ b ctx key tokens now h (hfresh key now)
      (fun bkt hb => refillTokens_ok now hb) ?_
    intro bkt hb hpos hle
    obtain ⟨h1, h2, h3, h4⟩ := hb
    exact ⟨by dsimp; linarith, by dsimp; linarith, h3, h4⟩
  | reset key => exact Reset_pres _ b key h
  | getInfo ctx key now =>
    exact GetInfo_pres _ b ctx key now h (hfresh key now)
      (fun bkt hb => refillTokens_ok now hb)
  | setLimit key limit refill now => simp [Op.isSetLimit] at hop
  | close => exact Close_pres _ b h
  | cleanup now => exact cleanup_pres _ b now h

/-- Both invariants carried along a run, together with the options. -/
theorem runOps_pres (b : InMemoryBackend) (ops : List Op)
    (hopt : OptionsOk b.options) (h : StoreInv BucketOkWeak b) :
    StoreInv BucketOkWeak (b.runOps ops) ∧
      (b.runOps ops).options = b.options := by
  induction ops generalizing b with
  | nil => exact ⟨h, rfl⟩
  | cons op rest ih =>
    have h1 := applyOp_pres_weak b op hopt h
    have h2 := applyOp_options b op
    have := ih (b.applyOp op) (h2 ▸ hopt) h1
    exact ⟨this.1, this.2.trans h2⟩

theorem runOps_pres_full (b : InMemoryBackend) (ops : List Op)
    (hopt : OptionsOk b.options)
    (hops : ∀ op ∈ ops, op.isSetLimit = false)
    (h : StoreInv BucketOk b) : StoreInv BucketOk (b.runOps ops) := by
  induction ops generalizing b with
  | nil => exact h
  | cons op rest ih =>
    have h1 := applyOp_pres_full b op hopt
      (hops op (List.mem_cons_self _ _)) h
    have h2 := applyOp_options b op
    exact ih (b.applyOp op) (h2 ▸ hopt)
      (fun o ho => hops o (List.mem_cons_of_mem _ ho)) h1

theorem getOrCreateBucket_eq_none {b : InMemoryBackend} {key : String}
    (now : Int) (hl : b.store.lookup key = none) :
    b.getOrCreateBucket key now =
      (b.freshBucket key now,
       { b with store := b.store.set key (b.freshBucket key now) }) := by
  unfold InMemoryBackend.getOrCreateBucket
  rw [hl]

theorem getOrCreateBucket_eq_some {b : InMemoryBackend} {key : String}
    {bkt : Bucket} (now : Int) (hl : b.store.lookup key = some bkt) :
    b.getOrCreateBucket key now = (bkt, b) := by
  unfold InMemoryBackend.getOrCreateBucket
  rw [hl]

/-- On the open, validated, non-cancelled path, Take is exactly
get-or-create, refill, consume-or-reject. -/
theorem Take_open_eq (b : InMemoryBackend) (ctx : Ctx) (key : String)
    (tokens now : Int) (hopen : b.closed = false)
    (hkey : validateKey key = none) (htok : validateTokens tokens = none)
    (hctx : ctx.cancelled = false) :
    b.Take ctx key tokens now =
      (if tokens ≤ ((b.getOrCreateBucket key now).1.refillTokens now).Tokens
       then
        (.ok true,
         { (b.getOrCreateBucket key now).2 with
           store := (b.getOrCreateBucket key now).2.store.set key
             { (b.getOrCreateBucket key now).1.refillTokens now with
               Tokens :=
                 ((b.getOrCreateBucket key now).1.refillTokens now).Tokens
                   - tokens } })
       else
        (.ok false,
         { (b.getOrCreateBucket key now).2 with
           store := (b.getOrCreateBucket key now).2.store.set key
             ((b.getOrCreateBucket key now).1.refillTokens now) })) := by
  unfold InMemoryBackend.Take
  rw [hopen, hkey, htok, hctx]
  simp

/-- The refill step, written with the spec's floor division (equal to the
code's truncating division since the elapsed time is nonnegative). -/
theorem refillTokens_spec (bkt : Bucket) (now : Int)
    (hlast : bkt.LastRefill ≤ now) (hrate : 0 < bkt.RefillRate) :
    (bkt.refillTokens now).Tokens =
      (if 0 < Int.fdiv (now - bkt.LastRefill) bkt.RefillRate
       then min bkt.MaxTokens
              (bkt.Tokens + Int.fdiv (now - bkt.LastRefill) bkt.RefillRate)
       else bkt.Tokens) ∧
    (bkt.refillTokens now).LastRefill =
      (if 0 < Int.fdiv (now - bkt.LastRefill) bkt.RefillRate
       then now else bkt.LastRefill) := by
  have hdiv : Int.tdiv (now - bkt.LastRefill) bkt.RefillRate =
      Int.fdiv (now - bkt.LastRefill) bkt.RefillRate :=
    (Int.fdiv_eq_tdiv (by linarith) (le_of_lt hrate)).symm
  unfold Bucket.refillTokens
  dsimp only
  rw [hdiv]
  split <;> simp

/-- C1 counterexample: starting from a fresh backend with the default
options, the single reachable-state operation SetLimit("k", 5, 1s) leaves
the key's bucket with tokens = 100 > max_tokens = 5, so the claimed
invariant tokens ≤ max_tokens fails at a reachable state. -/
theorem c1_counterexample :
    (((NewInMemoryBackend DefaultOptions).runOps
        [Op.setLimit "k" 5 1000000000 0]).store.lookup "k").map bucketOkB =
      some false := by decide

/-- C1 (amended): for every reachable state of the in-memory backend,
every stored bucket has 0 ≤ tokens (with positive capacity and refill
rate); the full bound 0 ≤ tokens ≤ max_tokens holds for every state
reachable without SetLimit. SetLimit does not clamp the token count, so
a SetLimit with a limit below the current count leaves
tokens > max_tokens (see the counterexample). -/
theorem c1_reachable_invariant (opts : Options) (ops : List Op)
    (hv : opts.Validate = true) :
    StoreInv BucketOkWeak ((NewInMemoryBackend opts).runOps ops) ∧
      ((∀ op ∈ ops, op.isSetLimit = false) →
        StoreInv BucketOk ((NewInMemoryBackend opts).runOps ops)) := by
  have hopt : OptionsOk opts := by
    unfold Options.Validate at hv
    simp only [Bool.and_eq_true, decide_eq_true_eq] at hv
    exact ⟨hv.1.1.1.1, hv.1.1.1.2⟩
  have hbase : StoreInv BucketOk (NewInMemoryBackend opts) := by
    intro kv hkv
    simp [NewInMemoryBackend] at hkv
  constructor
  · exact (runOps_pres (NewInMemoryBackend opts) ops hopt
      (fun kv hkv => by simp [NewInMemoryBackend] at hkv)).1
  · intro hops
    exact runOps_pres_full (NewInMemoryBackend opts) ops hopt hops hbase

theorem c1_reachable_invariant_witness :
    DefaultOptions.Validate = true ∧
      StoreInv BucketOkWeak ((NewInMemoryBackend DefaultOptions).runOps
        [Op.take ⟨false⟩ "k" 3 0]) ∧
      StoreInv BucketOk ((NewInMemoryBackend DefaultOptions).runOps
        [Op.take ⟨false⟩ "k" 3 0]) := by
  refine ⟨by decide, ?_, ?_⟩
  · exact (c1_reachable_invariant DefaultOptions [Op.take ⟨false⟩ "k" 3 0]
      (by decide)).1
  · refine (c1_reachable_invariant DefaultOptions [Op.take ⟨false⟩ "k" 3 0]
      (by decide)).2 ?_
    intro op hop
    simp at hop
    subst hop
    rfl

/-- C2: on an open backend with valid inputs and a non-cancelled context,
Take behaves exactly as the spec's section 4.1 algorithm: a first access
creates a full bucket at the configured default limit; the refill mints
floor((now - last_refill_time) / refill_interval) whole intervals, clamps
at capacity and advances the watermark only when positive; the request is
allowed iff the post-refill count covers it, consuming exactly the
requested amount. The hypotheses on the effective bucket say the clock
did not go backwards and the stored rate is positive (both hold on every
reachable state by the reachability invariant). -/
theorem c2_take_follows_spec (b : InMemoryBackend) (ctx : Ctx) (key : String)
    (tokens now : Int) (hopen : b.closed = false)
    (hkey : validateKey key = none) (htok : validateTokens tokens = none)
    (hctx : ctx.cancelled = false)
    (hlast : ((b.getOrCreateBucket key now).1).LastRefill ≤ now)
    (hrate : 0 < ((b.getOrCreateBucket key now).1).RefillRate) :
    (b.store.lookup key = none →
      (b.getOrCreateBucket key now).1 = b.freshBucket key now ∧
      (b.freshBucket key now).Tokens = (b.freshBucket key now).MaxTokens ∧
      (b.freshBucket key now).LastRefill = now) ∧
    (b.Take ctx key tokens now).1 =
      .ok (specAttemptConsume ((b.getOrCreateBucket key now).1).Tokens
        ((b.getOrCreateBucket key now).1).MaxTokens
        ((b.getOrCreateBucket key now).1).RefillRate
        ((b.getOrCreateBucket key now).1).LastRefill now tokens).allowed ∧
    ((b.Take ctx key tokens now).2.store.lookup key).map
        (fun bkt => (bkt.Tokens, bkt.LastRefill, bkt.MaxTokens, bkt.RefillRate)) =
      some ((specAttemptConsume ((b.getOrCreateBucket key now).1).Tokens
               ((b.getOrCreateBucket key now).1).MaxTokens
               ((b.getOrCreateBucket key now).1).RefillRate
               ((b.getOrCreateBucket key now).1).LastRefill now tokens).tokens,
            (specAttemptConsume ((b.getOrCreateBucket key now).1).Tokens
               ((b.getOrCreateBucket key now).1).MaxTokens
               ((b.getOrCreateBucket key now).1).RefillRate
               ((b.getOrCreateBucket key now).1).LastRefill now tokens).lastRefill,
            ((b.getOrCreateBucket key now).1).MaxTokens,
            ((b.getOrCreateBucket key now).1).RefillRate) := by
  refine ⟨?_, ?_⟩
  · intro hl
    rw [getOrCreateBucket_eq_none now hl]
    exact ⟨rfl, rfl, rfl⟩
  have hrs := refillTokens_spec ((b.getOrCreateBucket key now).1) now hlast hrate
  rw [Take_open_eq b ctx key tokens now hopen hkey htok hctx]
  unfold specAttemptConsume
  dsimp only
  rw [← hrs.1, ← hrs.2]
  by_cases hc : tokens ≤ (((b.getOrCreateBucket key now).1).refillTokens now).Tokens
  · simp [hc, Store.lookup_set_self, refillTokens_MaxTokens, refillTokens_RefillRate]
  · simp [hc, Store.lookup_set_self, refillTokens_MaxTokens, refillTokens_RefillRate]

theorem c2_take_follows_spec_witness :
    (NewInMemoryBackend DefaultOptions).closed = false ∧
      validateKey "k" = none ∧ validateTokens 1 = none ∧
      Ctx.cancelled ⟨false⟩ = false ∧
      ((((NewInMemoryBackend DefaultOptions).getOrCreateBucket "k"
          0).1).LastRefill ≤ 0) ∧
      (0 < (((NewInMemoryBackend DefaultOptions).getOrCreateBucket "k"
          0).1).RefillRate) ∧
      ((NewInMemoryBackend DefaultOptions).Take ⟨false⟩ "k" 1 0).1 =
        .ok (specAttemptConsume 100 100 1000000000 0 0 1).allowed := by
  refine ⟨rfl, by decide, by decide, rfl, by decide, by decide, ?_⟩
  exact (c2_take_follows_spec (NewInMemoryBackend DefaultOptions) ⟨false⟩
    "k" 1 0 rfl (by decide) (by decide) rfl (by decide) (by decide)).2.1

/-- On the open, validated path SetLimit overwrites exactly the policy
fields of the (possibly fresh) bucket. -/
theorem SetLimit_open_eq (b : InMemoryBackend) (key : String)
    (limit refill now : Int) (hopen : b.closed = false)
    (hkey : validateKey key = none) (hlim : 0 < limit) (href : 0 < refill) :
    b.SetLimit key limit refill now =
      (none,
       { (b.getOrCreateBucket key now).2 with
         store := (b.getOrCreateBucket key now).2.store.set key
           { (b.getOrCreateBucket key now).1 with
             MaxTokens := limit, RefillRate := refill
             ResetTime := now + refill } }) := by
  unfold InMemoryBackend.SetLimit
  rw [hopen, hkey]
  simp [not_le.mpr hlim, not_le.mpr href]

/-- On the open, validated, non-cancelled path GetInfo snapshots the
refilled bucket and persists the refill. -/
theorem GetInfo_open_eq (b : InMemoryBackend) (ctx : Ctx) (key : String)
    (now : Int) (hopen : b.closed = false) (hkey : validateKey key = none)
    (hctx : ctx.cancelled = false) :
    b.GetInfo ctx key now =
      (.ok { Key := ((b.getOrCreateBucket key now).1.refillTokens now).Key
             Tokens := ((b.getOrCreateBucket key now).1.refillTokens now).Tokens
             MaxTokens := ((b.getOrCreateBucket key now).1.refillTokens now).MaxTokens
             RefillRate := ((b.getOrCreateBucket key now).1.refillTokens now).RefillRate
             LastRefill := ((b.getOrCreateBucket key now).1.refillTokens now).LastRefill
             NextRefill := ((b.getOrCreateBucket key now).1.refillTokens now).NextRefill
             ResetTime := ((b.getOrCreateBucket key now).1.refillTokens now).ResetTime },
       { (b.getOrCreateBucket key now).2 with
         store := (b.getOrCreateBucket key now).2.store.set key
           ((b.getOrCreateBucket key now).1.refillTokens now) }) := by
  unfold InMemoryBackend.GetInfo
  rw [hopen, hkey, hctx]
  simp

/-- A refill within the same interval (no whole interval elapsed) is a
no-op. -/
theorem refillTokens_noop (bkt : Bucket) (now : Int)
    (h0 : bkt.LastRefill ≤ now)
    (hlt : now - bkt.LastRefill < bkt.RefillRate) :
    bkt.refillTokens now = bkt := by
  unfold Bucket.refillTokens
  dsimp only
  rw [Int.tdiv_eq_zero_of_lt (by linarith) hlt]
  simp

/-- C3 counterexample: from a fresh backend with the default options (the
bucket for "k" is created full at 100 tokens by SetLimit's own
get-or-create), SetLimit("k", 5, 1s) followed by GetInfo at the same
instant reports max_tokens = 5 and refill_rate = 1s but tokens = 100:
the pre-call token count is not clamped to the new smaller limit. -/
theorem c3_counterexample :
    ((((NewInMemoryBackend DefaultOptions).runOps
        [Op.setLimit "k" 5 1000000000 0]).GetInfo ⟨false⟩ "k" 0).1 =
      .ok { Key := "k", Tokens := 100, MaxTokens := 5
            RefillRate := 1000000000, LastRefill := 0
            NextRefill := 1000000000, ResetTime := 1000000000 }) ∧
    ¬ ((100 : Int) ≤ 5) := ⟨rfl, by decide⟩

/-- C3 (amended): for an existing bucket, SetLimit(key, L, R) followed by
GetInfo(key) reports max_tokens = L and refill_rate = R, with tokens
exactly the pre-call value — never clamped by SetLimit, even when it
exceeds L (a clamp can only happen at a later refill that mints tokens;
the hypotheses put the GetInfo inside the first refill interval so that
no refill applies). -/
theorem c3_setlimit_getinfo_roundtrip (b : InMemoryBackend) (ctx : Ctx)
    (key : String) (bkt : Bucket) (L R now1 now2 : Int)
    (hopen : b.closed = false) (hkey : validateKey key = none)
    (hctx : ctx.cancelled = false) (hL : 0 < L) (hR : 0 < R)
    (hl : b.store.lookup key = some bkt)
    (h0 : bkt.LastRefill ≤ now2) (hlt : now2 - bkt.LastRefill < R) :
    (b.SetLimit key L R now1).1 = none ∧
    (((b.SetLimit key L R now1).2).GetInfo ctx key now2).1 =
      .ok { Key := bkt.Key, Tokens := bkt.Tokens, MaxTokens := L
            RefillRate := R, LastRefill := bkt.LastRefill
            NextRefill := bkt.NextRefill, ResetTime := now1 + R } := by
  have hset := SetLimit_open_eq b key L R now1 hopen hkey hL hR
  rw [getOrCreateBucket_eq_some now1 hl] at hset
  have hb1 : (b.SetLimit key L R now1).2 = { b with store := b.store.set key ({ bkt with MaxTokens := L, RefillRate := R, ResetTime := now1 + R }) } := by
    rw [hset]
  refine ⟨by rw [hset], ?_⟩
  rw [hb1]
  have hl2 : (b.store.set key ({ bkt with MaxTokens := L, RefillRate := R, ResetTime := now1 + R })).lookup key = some ({ bkt with MaxTokens := L, RefillRate := R, ResetTime := now1 + R }) :=
    Store.lookup_set_self _ _ _
  rw [GetInfo_open_eq ({ b with store := b.store.set key ({ bkt with MaxTokens := L, RefillRate := R, ResetTime := now1 + R }) }) ctx key now2 hopen hkey hctx]
  rw [getOrCreateBucket_eq_some now2 hl2]
  dsimp only
  rw [refillTokens_noop ({ bkt with MaxTokens := L, RefillRate := R, ResetTime := now1 + R }) now2 h0 hlt]

theorem c3_setlimit_getinfo_roundtrip_witness :
    ((NewInMemoryBackend DefaultOptions).runOps
        [Op.getInfo ⟨false⟩ "k" 0]).store.lookup "k" =
      some { Key := "k", Tokens := 100, MaxTokens := 100
             RefillRate := 1000000000, LastRefill := 0
             NextRefill := 1000000000, ResetTime := 1000000000 } ∧
    ((((NewInMemoryBackend DefaultOptions).runOps
        [Op.getInfo ⟨false⟩ "k" 0]).SetLimit "k" 5 1000000000 0).2.GetInfo
        ⟨false⟩ "k" 0).1 =
      .ok { Key := "k", Tokens := 100, MaxTokens := 5
            RefillRate := 1000000000, LastRefill := 0
            NextRefill := 1000000000, ResetTime := 1000000000 } := by
  refine ⟨by decide, ?_⟩
  exact (c3_setlimit_getinfo_roundtrip
    ((NewInMemoryBackend DefaultOptions).runOps [Op.getInfo ⟨false⟩ "k" 0])
    ⟨false⟩ "k"
    { Key := "k", Tokens := 100, MaxTokens := 100
      RefillRate := 1000000000, LastRefill := 0
      NextRefill := 1000000000, ResetTime := 1000000000 }
    5 1000000000 0 0 rfl (by decide) rfl (by decide) (by decide)
    (by decide) (by decide) (by decide)).2

/-- C5: a rejected Take (requested exceeds the post-refill count) returns
allowed = false and writes back exactly the post-refill bucket — no
partial consumption, and no other key's bucket is touched. -/
theorem c5_reject_without_mutation (b : InMemoryBackend) (ctx : Ctx)
    (key : String) (tokens now : Int) (hopen : b.closed = false)
    (hkey : validateKey key = none) (htok : validateTokens tokens = none)
    (hctx : ctx.cancelled = false)
    (hrej : (((b.getOrCreateBucket key now).1).refillTokens now).Tokens
      < tokens) :
    (b.Take ctx key tokens now).1 = .ok false ∧
    (b.Take ctx key tokens now).2.store.lookup key =
      some (((b.getOrCreateBucket key now).1).refillTokens now) ∧
    (∀ k', k' ≠ key →
      (b.Take ctx key tokens now).2.store.lookup k' = b.store.lookup k') := by
  rw [Take_open_eq b ctx key tokens now hopen hkey htok hctx,
    if_neg (not_le.mpr hrej)]
  refine ⟨rfl, Store.lookup_set_self _ _ _, ?_⟩
  intro k' hk'
  show ((b.getOrCreateBucket key now).2.store.set key _).lookup k' = _
  rw [Store.lookup_set_of_ne _ _ _ _ hk']
  cases hl : b.store.lookup key with
  | some bkt => rw [getOrCreateBucket_eq_some now hl]
  | none =>
    rw [getOrCreateBucket_eq_none now hl]
    exact Store.lookup_set_of_ne _ _ _ _ hk'

theorem c5_reject_without_mutation_witness :
    ((NewInMemoryBackend DefaultOptions).Take ⟨false⟩ "k" 200 0).1 =
      .ok false ∧
    ((NewInMemoryBackend DefaultOptions).Take ⟨false⟩ "k" 200 0).2.store.lookup
        "k" =
      some { Key := "k", Tokens := 100, MaxTokens := 100
             RefillRate := 1000000000, LastRefill := 0
             NextRefill := 1000000000, ResetTime := 1000000000 } := by
  have h := c5_reject_without_mutation (NewInMemoryBackend DefaultOptions)
    ⟨false⟩ "k" 200 0 rfl (by decide) (by decide) rfl (by decide)
  refine ⟨h.1, ?_⟩
  rw [h.2.1]
  rfl

/-- C4: for a stored bucket state (tokens, max_tokens, refill_rate,
last_refill) and a current time not earlier than the watermark, the Redis
Lua script mints exactly the same number of tokens as the in-memory
refill (its floor division agrees with the code's truncating division on
the nonnegative elapsed time), applies the same min-with-capacity clamp,
and reaches the same allow/deny decision with the same resulting token
count and watermark; when the key is absent, the script starts from the
configured defaults with a full bucket, matching getOrCreateBucket. -/
theorem c4_lua_refines_inmemory (key : String) (t M R last now req nr rt : Int)
    (Ld Rd : Int) (hR : 0 < R) (hlast : last ≤ now) (b : InMemoryBackend)
    (habsent : b.store.lookup key = none) :
    (luaTake ⟨some t, some M, some R, some last⟩ req Ld Rd now).minted =
      Int.tdiv (now - last) (Bucket.RefillRate ⟨key, t, M, R, last, nr, rt⟩) ∧
    (luaTake ⟨some t, some M, some R, some last⟩ req Ld Rd now).allowed =
      decide (req ≤ ((Bucket.refillTokens ⟨key, t, M, R, last, nr, rt⟩ now).Tokens)) ∧
    (luaTake ⟨some t, some M, some R, some last⟩ req Ld Rd now).tokens =
      (if req ≤ (Bucket.refillTokens ⟨key, t, M, R, last, nr, rt⟩ now).Tokens
       then (Bucket.refillTokens ⟨key, t, M, R, last, nr, rt⟩ now).Tokens - req
       else (Bucket.refillTokens ⟨key, t, M, R, last, nr, rt⟩ now).Tokens) ∧
    (luaTake ⟨some t, some M, some R, some last⟩ req Ld Rd now).lastRefill =
      (Bucket.refillTokens ⟨key, t, M, R, last, nr, rt⟩ now).LastRefill ∧
    (luaTake ⟨none, none, none, none⟩ req b.options.DefaultLimit
        b.options.DefaultRefill now).allowed =
      decide (req ≤ (((b.getOrCreateBucket key now).1).refillTokens now).Tokens) ∧
    (luaTake ⟨none, none, none, none⟩ req b.options.DefaultLimit
        b.options.DefaultRefill now).tokens =
      (if req ≤ (((b.getOrCreateBucket key now).1).refillTokens now).Tokens
       then (((b.getOrCreateBucket key now).1).refillTokens now).Tokens - req
       else (((b.getOrCreateBucket key now).1).refillTokens now).Tokens) := by
  have hdiv : Int.fdiv (now - last) R = Int.tdiv (now - last) R :=
    Int.fdiv_eq_tdiv (by linarith) (le_of_lt hR)
  have hfresh : ((b.getOrCreateBucket key now).1).refillTokens now =
      b.freshBucket key now := by
    rw [getOrCreateBucket_eq_none now habsent]
    dsimp only
    unfold Bucket.refillTokens InMemoryBackend.freshBucket
    dsimp only
    rw [sub_self, Int.zero_tdiv]
    simp
  refine ⟨?_, ?_, ?_, ?_, ?_, ?_⟩
  · unfold luaTake
    dsimp only
    simp only [Option.getD_some]
    split_ifs <;> exact hdiv
  · unfold luaTake Bucket.refillTokens
    dsimp only
    simp only [Option.getD_some]
    rw [hdiv]
    split_ifs <;> simp_all
  · unfold luaTake Bucket.refillTokens
    dsimp only
    simp only [Option.getD_some]
    rw [hdiv]
    split_ifs <;> simp_all
  · unfold luaTake Bucket.refillTokens
    dsimp only
    simp only [Option.getD_some]
    rw [hdiv]
    split_ifs <;> simp_all
  · rw [hfresh]
    unfold luaTake InMemoryBackend.freshBucket
    dsimp only
    simp only [Option.getD_none]
    rw [sub_self, Int.zero_fdiv]
    split_ifs <;> simp_all
  · rw [hfresh]
    unfold luaTake InMemoryBackend.freshBucket
    dsimp only
    simp only [Option.getD_none]
    rw [sub_self, Int.zero_fdiv]
    split_ifs <;> simp_all

theorem c4_lua_refines_inmemory_witness :
    (0 : Int) < 1000 ∧ (0 : Int) ≤ 2500 ∧
    (NewInMemoryBackend DefaultOptions).store.lookup "k" = none ∧
    (luaTake ⟨some 3, some 5, some 1000, some 0⟩ 2 100 1000 2500).allowed =
      decide ((2 : Int) ≤
        ((Bucket.refillTokens ⟨"k", 3, 5, 1000, 0, 0, 0⟩ 2500).Tokens)) := by
  refine ⟨by decide, by decide, by decide, ?_⟩
  exact (c4_lua_refines_inmemory "k" 3 5 1000 0 2500 2 0 0 100 1000
    (by decide) (by decide) (NewInMemoryBackend DefaultOptions)
    (by decide)).2.1

/-- C6: on an open limiter, a Take with an empty key, an over-long key,
a nonpositive token count, or a token count above 10 times the configured
default limit returns a ValidationError and never reaches the backend. -/
theorem c6_take_validation (r : RateLimiter) (ctx : Ctx) (key : String)
    (tokens : Int) (bt : String → Int → Except Err Bool)
    (hopen : r.closed = false)
    (hbad : key = "" ∨ 256 < key.utf8ByteSize ∨ tokens ≤ 0 ∨
      r.config.DefaultLimit * 10 < tokens) :
    exceptIsValidation (r.Take ctx key tokens bt).1 = true ∧
    (r.Take ctx key tokens bt).2 = false := by
  have hked : r.validateKey key = none ∨
      r.validateKey key = some Err.invalidKey := by
    unfold RateLimiter.validateKey
    split_ifs <;> simp
  rcases hked with hk | hk
  · have hbad2 : tokens ≤ 0 ∨ r.config.DefaultLimit * 10 < tokens := by
      unfold RateLimiter.validateKey at hk
      rcases hbad with h | h | h | h
      · rw [if_pos h] at hk
        cases hk
      · rw [if_neg ?_, if_pos h] at hk
        · cases hk
        · intro hke
          rw [hke] at h
          exact absurd h (by decide)
      · exact Or.inl h
      · exact Or.inr h
    have ht : r.validateTokens tokens = some .invalidTokens := by
      unfold RateLimiter.validateTokens
      by_cases h0 : tokens ≤ 0
      · rw [if_pos h0]
      · rcases hbad2 with h | h
        · exact absurd h h0
        · rw [if_neg h0, if_pos h]
    constructor <;>
      simp [RateLimiter.Take, hopen, hk, ht, exceptIsValidation,
        Err.isValidation]
  · constructor <;>
      simp [RateLimiter.Take, hopen, hk, exceptIsValidation,
        Err.isValidation]

theorem c6_take_validation_witness :
    RateLimiter.closed ⟨DefaultConfig, false⟩ = false ∧
    exceptIsValidation
      (RateLimiter.Take ⟨DefaultConfig, false⟩ ⟨false⟩ "" 1
        (fun _ _ => .ok true)).1 = true ∧
    (RateLimiter.Take ⟨DefaultConfig, false⟩ ⟨false⟩ "" 1
      (fun _ _ => .ok true)).2 = false := by
  refine ⟨rfl, ?_, ?_⟩
  · exact (c6_take_validation ⟨DefaultConfig, false⟩ ⟨false⟩ "" 1
      (fun _ _ => .ok true) rfl (Or.inl rfl)).1
  · exact (c6_take_validation ⟨DefaultConfig, false⟩ ⟨false⟩ "" 1
      (fun _ _ => .ok true) rfl (Or.inl rfl)).2

/-- C7: Close on an already-closed facade returns nil, keeps the state,
and does not call the backend (and any Close leaves the facade closed);
on a closed facade, Take, TakeWithLimit, Reset, GetInfo and HealthCheck
all fail with the backend-unavailable kind without reaching the backend. -/
theorem c7_close_idempotent_post_close :
    (∀ (r : RateLimiter) (bc : Unit → Option Err),
      ((r.Close bc).2.1).closed = true) ∧
    (∀ (r : RateLimiter) (bc : Unit → Option Err), r.closed = true →
      r.Close bc = (none, r, false)) ∧
    (∀ (r : RateLimiter) (ctx : Ctx) (key : String) (tokens : Int)
      (bt : String → Int → Except Err Bool), r.closed = true →
      r.Take ctx key tokens bt = (.error .backendUnavailable, false)) ∧
    (∀ (r : RateLimiter) (ctx : Ctx) (key : String)
      (tokens limit refill : Int)
      (bsl : String → Int → Int → Option Err)
      (bt : String → Int → Except Err Bool), r.closed = true →
      r.TakeWithLimit ctx key tokens limit refill bsl bt =
        (.error .backendUnavailable, false)) ∧
    (∀ (r : RateLimiter) (key : String) (br : String → Option Err),
      r.closed = true →
      r.Reset key br = (some .backendUnavailable, false)) ∧
    (∀ (r : RateLimiter) (key : String)
      (bgi : String → Except Err TokenInfo), r.closed = true →
      r.GetInfo key bgi = (.error .backendUnavailable, false)) ∧
    (∀ (r : RateLimiter) (bh : Unit → Option Err), r.closed = true →
      r.HealthCheck bh = (some .backendUnavailable, false)) := by
  refine ⟨?_, ?_, ?_, ?_, ?_, ?_, ?_⟩
  · intro r bc
    by_cases h : r.closed = true <;> simp [RateLimiter.Close, h]
  · intro r bc h
    simp [RateLimiter.Close, h]
  · intro r ctx key tokens bt h
    simp [RateLimiter.Take, h]
  · intro r ctx key tokens limit refill bsl bt h
    simp [RateLimiter.TakeWithLimit, h]
  · intro r key br h
    simp [RateLimiter.Reset, h]
  · intro r key bgi h
    simp [RateLimiter.GetInfo, h]
  · intro r bh h
    simp [RateLimiter.HealthCheck, h]

theorem c7_close_idempotent_post_close_witness :
    ((RateLimiter.Close ⟨DefaultConfig, false⟩ (fun _ => none)).2.1).closed =
      true ∧
    RateLimiter.Close ⟨DefaultConfig, true⟩ (fun _ => none) =
      (none, ⟨DefaultConfig, true⟩, false) ∧
    RateLimiter.Take ⟨DefaultConfig, true⟩ ⟨false⟩ "k" 1
      (fun _ _ => .ok true) = (.error .backendUnavailable, false) ∧
    RateLimiter.TakeWithLimit ⟨DefaultConfig, true⟩ ⟨false⟩ "k" 1 5
      1000000000 (fun _ _ _ => none) (fun _ _ => .ok true) =
      (.error .backendUnavailable, false) ∧
    RateLimiter.Reset ⟨DefaultConfig, true⟩ "k" (fun _ => none) =
      (some .backendUnavailable, false) ∧
    RateLimiter.GetInfo ⟨DefaultConfig, true⟩ "k"
      (fun _ => .error .backendUnavailable) =
      (.error .backendUnavailable, false) ∧
    RateLimiter.HealthCheck ⟨DefaultConfig, true⟩ (fun _ => none) =
      (some .backendUnavailable, false) :=
  ⟨c7_close_idempotent_post_close.1 ⟨DefaultConfig, false⟩ (fun _ => none),
   c7_close_idempotent_post_close.2.1 ⟨DefaultConfig, true⟩ (fun _ => none)
     rfl,
   c7_close_idempotent_post_close.2.2.1 ⟨DefaultConfig, true⟩ ⟨false⟩ "k" 1
     (fun _ _ => .ok true) rfl,
   c7_close_idempotent_post_close.2.2.2.1 ⟨DefaultConfig, true⟩ ⟨false⟩ "k"
     1 5 1000000000 (fun _ _ _ => none) (fun _ _ => .ok true) rfl,
   c7_close_idempotent_post_close.2.2.2.2.1 ⟨DefaultConfig, true⟩ "k"
     (fun _ => none) rfl,
   c7_close_idempotent_post_close.2.2.2.2.2.1 ⟨DefaultConfig, true⟩ "k"
     (fun _ => .error .backendUnavailable) rfl,
   c7_close_idempotent_post_close.2.2.2.2.2.2 ⟨DefaultConfig, true⟩
     (fun _ => none) rfl⟩

/-- C9: New with a non-nil backend and a nil config succeeds and installs
the package default configuration (which passes validation). -/
theorem c9_new_nil_config_defaults :
    RateLimiterNew false none =
      .ok { config := DefaultConfig, closed := false } := by
  rfl

/-- C10: IsAllowed performs no token-count validation: on an open limiter
with a valid key whose backend snapshot succeeds with a nonnegative token
count, a request of t ≤ 0 tokens is reported allowed (true, no error),
because IsAllowed only compares the snapshot count against t. -/
theorem c10_isallowed_no_token_validation (r : RateLimiter) (key : String)
    (tokens : Int) (bgi : String → Except Err TokenInfo) (info : TokenInfo)
    (hopen : r.closed = false) (hkey : r.validateKey key = none)
    (hgi : bgi key = .ok info) (hnn : 0 ≤ info.Tokens) (ht : tokens ≤ 0) :
    r.IsAllowed key tokens bgi = (.ok true, true) := by
  have hle : tokens ≤ info.Tokens := le_trans ht hnn
  unfold RateLimiter.IsAllowed RateLimiter.GetInfo
  rw [hopen, hkey, hgi]
  simp [hle]

theorem c10_isallowed_no_token_validation_witness :
    RateLimiter.closed ⟨DefaultConfig, false⟩ = false ∧
    RateLimiter.validateKey ⟨DefaultConfig, false⟩ "k" = none ∧
    ((0 : Int) ≤ 0) ∧ ((0 : Int) ≤ 0) ∧
    RateLimiter.IsAllowed ⟨DefaultConfig, false⟩ "k" 0
      (fun _ => .ok { Key := "k", Tokens := 0, MaxTokens := 100
                      RefillRate := 1000000000, LastRefill := 0
                      NextRefill := 1000000000, ResetTime := 1000000000 }) =
      (.ok true, true) := by
  refine ⟨rfl, by decide, by decide, by decide, ?_⟩
  exact c10_isallowed_no_token_validation ⟨DefaultConfig, false⟩ "k" 0
    (fun _ => .ok { Key := "k", Tokens := 0, MaxTokens := 100
                    RefillRate := 1000000000, LastRefill := 0
                    NextRefill := 1000000000, ResetTime := 1000000000 })
    { Key := "k", Tokens := 0, MaxTokens := 100
      RefillRate := 1000000000, LastRefill := 0
      NextRefill := 1000000000, ResetTime := 1000000000 }
    rfl (by decide) rfl (by decide) (by decide)

/-- If the context stays uncancelled and every poll denies before tick n,
and cancellation is visible at tick n, the wait loop returns the
context-cancelled error exactly at tick n (one loop iteration after the
cancellation becomes visible). -/
theorem waitLoop_cancel (cancelledAt : Nat → Bool)
    (poll : Nat → Except Err Bool) (n : Nat)
    (hmid : ∀ j, 1 ≤ j → j < n → cancelledAt j = false ∧ poll j = .ok false)
    (hc : cancelledAt n = true) :
    ∀ (fuel k polls : Nat), 1 ≤ k → k ≤ n → n - k < fuel →
      waitLoop cancelledAt poll k fuel polls =
        some (n, polls + (n - k), some .contextCancelled) := by
  intro fuel
  induction fuel with
  | zero => omega
  | succ m ih =>
    intro k polls hk hkn hfuel
    by_cases hkeq : k = n
    · subst hkeq
      unfold waitLoop
      rw [hc]
      simp
    · have hlt : k < n := lt_of_le_of_ne hkn hkeq
      have hm := hmid k hk hlt
      unfold waitLoop
      rw [hm.1, hm.2]
      simp only [Bool.false_eq_true, if_false]
      rw [ih (k + 1) (polls + 1) (by omega) (by omega) (by omega)]
      have harith : polls + 1 + (n - (k + 1)) = polls + (n - k) := by omega
      rw [harith]

/-- C8 counterexample: on an open limiter with a healthy backend snapshot
(100 of 100 tokens) and a never-cancelled context, Wait(key, 0) returns
success only at the first 100ms tick, after performing exactly one
IsAllowed poll of the backend — it enters the polling loop rather than
returning immediately; and with a pre-cancelled context, Wait(key, 0)
returns the context-cancelled error rather than immediate success. -/
theorem c8_counterexample :
    (RateLimiter.Wait ⟨DefaultConfig, false⟩ "k" 0 (fun _ => false)
        (fun _ _ => .ok { Key := "k", Tokens := 100, MaxTokens := 100
                          RefillRate := 1000000000, LastRefill := 0
                          NextRefill := 1000000000, ResetTime := 1000000000 })
        5 =
      some (1, 1, none)) ∧
    (RateLimiter.Wait ⟨DefaultConfig, false⟩ "k" 0 (fun _ => true)
        (fun _ _ => .ok { Key := "k", Tokens := 100, MaxTokens := 100
                          RefillRate := 1000000000, LastRefill := 0
                          NextRefill := 1000000000, ResetTime := 1000000000 })
        5 =
      some (1, 0, some .contextCancelled)) ∧
    (1 : Nat) ≠ 0 := by
  refine ⟨rfl, rfl, by decide⟩

/-- C8 (amended): Wait has no special case for tokens ≤ 0. On an open
limiter with a valid key whose backend snapshots succeed with nonnegative
token counts, Wait(key, t) with t ≤ 0 returns success at the FIRST poll
tick, after exactly one IsAllowed poll (about 100ms), never before a
tick; a pre-cancelled context makes Wait return the context-cancelled
error at the first loop iteration without polling; and in general, if
polls keep denying and the cancellation becomes visible at tick n, Wait
returns the context-cancelled error exactly at tick n — within one poll
tick of the cancellation. -/
theorem c8_wait_amended (r : RateLimiter) (key : String) (tokens : Int)
    (cancelledAt : Nat → Bool)
    (bgi : Nat → String → Except Err TokenInfo)
    (infoAt : Nat → TokenInfo) (fuel n : Nat) :
    (r.closed = false → r.validateKey key = none →
     (∀ k, bgi k key = .ok (infoAt k)) → (∀ k, 0 ≤ (infoAt k).Tokens) →
     tokens ≤ 0 → cancelledAt 1 = false → 1 ≤ fuel →
     r.Wait key tokens cancelledAt bgi fuel = some (1, 1, none)) ∧
    (cancelledAt 1 = true → 1 ≤ fuel →
     r.Wait key tokens cancelledAt bgi fuel =
       some (1, 0, some .contextCancelled)) ∧
    (1 ≤ n → n ≤ fuel →
     (∀ j, 1 ≤ j → j < n → cancelledAt j = false ∧
       (r.IsAllowed key tokens (bgi j)).1 = .ok false) →
     cancelledAt n = true →
     r.Wait key tokens cancelledAt bgi fuel =
       some (n, n - 1, some .contextCancelled)) := by
  refine ⟨?_, ?_, ?_⟩
  · intro hopen hkey hgi hnn ht hc1 hfuel
    obtain ⟨m, rfl⟩ : ∃ m, fuel = m + 1 :=
      ⟨fuel - 1, by omega⟩
    have hpoll : (r.IsAllowed key tokens (bgi 1)).1 = .ok true := by
      have hle : tokens ≤ (infoAt 1).Tokens := le_trans ht (hnn 1)
      unfold RateLimiter.IsAllowed RateLimiter.GetInfo
      rw [hopen, hkey, hgi 1]
      simp [hle]
    unfold RateLimiter.Wait waitLoop
    rw [hc1, hpoll]
    simp
  · intro hc1 hfuel
    obtain ⟨m, rfl⟩ : ∃ m, fuel = m + 1 :=
      ⟨fuel - 1, by omega⟩
    unfold RateLimiter.Wait waitLoop
    rw [hc1]
    simp
  · intro hn hnf hmid hc
    unfold RateLimiter.Wait
    have := waitLoop_cancel cancelledAt
      (fun k => (r.IsAllowed key tokens (bgi k)).1) n
      (fun j hj hjn => ⟨(hmid j hj hjn).1, (hmid j hj hjn).2⟩) hc
      fuel 1 0 (le_refl 1) hn (by omega)
    rw [this, Nat.zero_add]

theorem c8_wait_amended_witness :
    RateLimiter.Wait ⟨DefaultConfig, false⟩ "k" 0 (fun _ => false)
      (fun _ _ => .ok { Key := "k", Tokens := 100, MaxTokens := 100
                        RefillRate := 1000000000, LastRefill := 0
                        NextRefill := 1000000000, ResetTime := 1000000000 })
      5 = some (1, 1, none) ∧
    RateLimiter.Wait ⟨DefaultConfig, false⟩ "k" (-1) (fun _ => true)
      (fun _ _ => .ok { Key := "k", Tokens := 100, MaxTokens := 100
                        RefillRate := 1000000000, LastRefill := 0
                        NextRefill := 1000000000, ResetTime := 1000000000 })
      5 = some (1, 0, some .contextCancelled) ∧
    RateLimiter.Wait ⟨DefaultConfig, false⟩ "k" 500 (fun k => decide (2 ≤ k))
      (fun _ _ => .ok { Key := "k", Tokens := 100, MaxTokens := 100
                        RefillRate := 1000000000, LastRefill := 0
                        NextRefill := 1000000000, ResetTime := 1000000000 })
      5 = some (2, 1, some .contextCancelled) := by
  refine ⟨?_, ?_, ?_⟩
  · exact (c8_wait_amended ⟨DefaultConfig, false⟩ "k" 0 (fun _ => false)
      (fun _ _ => .ok { Key := "k", Tokens := 100, MaxTokens := 100
                        RefillRate := 1000000000, LastRefill := 0
                        NextRefill := 1000000000, ResetTime := 1000000000 })
      (fun _ => { Key := "k", Tokens := 100, MaxTokens := 100
                  RefillRate := 1000000000, LastRefill := 0
                  NextRefill := 1000000000, ResetTime := 1000000000 })
      5 1).1 rfl (by decide) (fun _ => rfl) (fun _ => by decide)
      (by decide) rfl (by decide)
  · exact (c8_wait_amended ⟨DefaultConfig, false⟩ "k" (-1) (fun _ => true)
      (fun _ _ => .ok { Key := "k", Tokens := 100, MaxTokens := 100
                        RefillRate := 1000000000, LastRefill := 0
                        NextRefill := 1000000000, ResetTime := 1000000000 })
      (fun _ => { Key := "k", Tokens := 100, MaxTokens := 100
                  RefillRate := 1000000000, LastRefill := 0
                  NextRefill := 1000000000, ResetTime := 1000000000 })
      5 1).2.1 rfl (by decide)
  · refine (c8_wait_amended ⟨DefaultConfig, false⟩ "k" 500
      (fun k => decide (2 ≤ k))
      (fun _ _ => .ok { Key := "k", Tokens := 100, MaxTokens := 100
                        RefillRate := 1000000000, LastRefill := 0
                        NextRefill := 1000000000, ResetTime := 1000000000 })
      (fun _ => { Key := "k", Tokens := 100, MaxTokens := 100
                  RefillRate := 1000000000, LastRefill := 0
                  NextRefill := 1000000000, ResetTime := 1000000000 })
      5 2).2.2 (by decide) (by decide) ?_ (by decide)
    intro j hj hjn
    have hj1 : j = 1 := by omega
    subst hj1
    exact ⟨rfl, rfl⟩

end GoRateLimiter
